import Mathlib

/-!
Verification of the general-data-collector crawler collection.

This file gives a shallow embedding of the crawler code (the fetch retry
loop, the HTML extractors of the arabnet, betalist and uneed crawlers, the
pagination driver, the JSON/CSV exporters and the input-list readers) and
proves or refutes the specification claims about them.

External collaborators (the HTTP client, BeautifulSoup, urllib.parse.urljoin,
json.dump, file I/O) are modelled as explicit parameters or as small
semantic models: HTML documents are element trees as BeautifulSoup would
produce them, and the CSS-selector subset actually used by the crawlers is
given an evaluator.  Python str operations used by the code are modelled by
executable char-list functions so that every definition evaluates by kernel
reduction.
-/

/-! ## Python string primitives -/

/-- Whitespace characters recognised by Python str.strip and str.split. -/
def isPyWs (c : Char) : Bool :=
  c = ' ' || c = '\t' || c = '\n' || c = '\r' || c = '\x0b' || c = '\x0c'

/-- Model of Python str.strip with no arguments. -/
def pyStrip (s : String) : String :=
  String.mk (((s.data.dropWhile isPyWs).reverse.dropWhile isPyWs).reverse)

/-- ASCII lower-casing of one character, as Python str.lower does on ASCII. -/
def pyLowerChar (c : Char) : Char :=
  if 'A' ≤ c ∧ c ≤ 'Z' then Char.ofNat (c.toNat + 32) else c

/-- Model of Python str.lower (the crawlers only lower-case ASCII data). -/
def pyLower (s : String) : String :=
  String.mk (s.data.map pyLowerChar)

/-- Auxiliary for substring search: does the needle occur in the haystack? -/
def hasSubL (needle : List Char) : List Char → Bool
  | [] => needle.isEmpty
  | c :: cs => needle.isPrefixOf (c :: cs) || hasSubL needle cs

/-- Model of the Python membership test "needle in hay" on strings. -/
def pyContains (hay needle : String) : Bool :=
  hasSubL needle.data hay.data

/-- Model of Python str.startswith. -/
def pyStarts (s pre : String) : Bool :=
  pre.data.isPrefixOf s.data

/-- Word splitting of Python str.split with no arguments: split on
whitespace runs, dropping empty tokens.  The accumulator holds the current
token reversed. -/
def splitWsL : List Char → List Char → List (List Char)
  | [], acc => if acc.isEmpty then [] else [acc.reverse]
  | c :: cs, acc =>
    if isPyWs c then
      if acc.isEmpty then splitWsL cs [] else acc.reverse :: splitWsL cs []
    else splitWsL cs (c :: acc)

/-- Model of Python str.split with no arguments. -/
def pySplitWs (s : String) : List String :=
  (splitWsL s.data []).map String.mk

/-- Replacement of every occurrence of a pattern, fuelled to stay
structurally recursive; called with fuel = length of the input, which is
always sufficient. -/
def replaceFuel (needle rep : List Char) : Nat → List Char → List Char
  | 0, l => l
  | _ + 1, [] => []
  | f + 1, c :: cs =>
    if needle ≠ [] ∧ needle.isPrefixOf (c :: cs) then
      rep ++ replaceFuel needle rep f ((c :: cs).drop needle.length)
    else c :: replaceFuel needle rep f cs

/-- Model of Python str.replace (replaces all occurrences, left to right). -/
def pyReplace (s needle rep : String) : String :=
  String.mk (replaceFuel needle.data rep.data s.data.length s.data)

/-- Model of Python str.rstrip with an explicit character set. -/
def pyRstripChars (s : String) (chs : List Char) : String :=
  String.mk ((s.data.reverse.dropWhile (fun c => chs.contains c)).reverse)

/-- Numeric value of a digit string (the strings fed to it are produced by
takeWhile isDigit, so every character is a digit). -/
def digitsVal (cs : List Char) : Nat :=
  cs.foldl (fun a c => a * 10 + (c.toNat - 48)) 0

/-- Python truthiness of an optional string: None and the empty string are
falsy. -/
def truthyS : Option String → Bool
  | none => false
  | some s => !s.data.isEmpty

/-! ## Calendar dates

datetime.date values; datetime.now() is passed in as an explicit `Date`
parameter wherever the Python code reads the wall clock. -/

/-- A calendar date as carried by Python datetime values. -/
structure Date where
  year : Nat
  month : Nat
  day : Nat
deriving DecidableEq, Repr

/-- Gregorian leap-year rule used by Python datetime. -/
def isLeap (y : Nat) : Bool :=
  (y % 4 = 0 ∧ y % 100 ≠ 0) ∨ y % 400 = 0

/-- Number of days of a month, as validated by the datetime constructor. -/
def daysInMonth (y m : Nat) : Nat :=
  if m = 2 then (if isLeap y then 29 else 28)
  else if m = 4 ∨ m = 6 ∨ m = 9 ∨ m = 11 then 30
  else 31

/-- Validity check performed by the datetime constructor (MINYEAR = 1,
MAXYEAR = 9999); strptime raises ValueError outside these bounds. -/
def validDate (y m d : Nat) : Bool :=
  1 ≤ m ∧ m ≤ 12 ∧ 1 ≤ d ∧ d ≤ daysInMonth y m ∧ 1 ≤ y ∧ y ≤ 9999

/-- Model of today - timedelta(days=1). -/
def dayBefore (d : Date) : Date :=
  if 1 < d.day then ⟨d.year, d.month, d.day - 1⟩
  else if 1 < d.month then ⟨d.year, d.month - 1, daysInMonth d.year (d.month - 1)⟩
  else ⟨d.year - 1, 12, 31⟩

/-- Two-digit zero padding of strftime %d and %m. -/
def pad2 (n : Nat) : String :=
  if n < 10 then "0" ++ toString n else toString n

/-- Model of strftime "%d-%m-%Y" (glibc %Y prints the year unpadded; every
year produced by the crawlers is four digits). -/
def fmtDMY (d : Date) : String :=
  pad2 d.day ++ "-" ++ pad2 d.month ++ "-" ++ toString d.year

/-! ## HTML documents

An element tree as produced by BeautifulSoup(html, "html.parser"): tags
with an attribute association list and children, interleaved with text
nodes.  A parsed document is a list of top-level nodes. -/

/-- One node of a parsed HTML document. -/
inductive Html where
  | elem (tag : String) (attrs : List (String × String)) (children : List Html)
  | text (s : String)

/-- Attribute lookup, as Tag.get / Tag.__getitem__. -/
def Html.attr? : Html → String → Option String
  | .elem _ as _, k => as.lookup k
  | .text _, _ => none

/-- Tag name of a node (text nodes never reach the selector evaluator). -/
def Html.tagOf : Html → String
  | .elem t _ _ => t
  | .text _ => ""

/-- The raw class attribute string. -/
def Html.classRaw (e : Html) : String :=
  (e.attr? "class").getD ""

/-- The class list of an element, as bs4 stores the multi-valued class
attribute (split on whitespace). -/
def Html.classList (e : Html) : List String :=
  pySplitWs e.classRaw

mutual
/-- All string descendants of a node, in document order (bs4 strings). -/
def textsOf : Html → List String
  | .text s => [s]
  | .elem _ _ cs => textsOfL cs
/-- String descendants of a node list, in document order. -/
def textsOfL : List Html → List String
  | [] => []
  | c :: cs => textsOf c ++ textsOfL cs
end

/-- Model of Tag.get_text(strip=True): strip each string descendant, drop
the ones that become empty, and concatenate. -/
def getTextStrip (e : Html) : String :=
  String.join (((textsOf e).map pyStrip).filter (fun s => !s.data.isEmpty))

mutual
/-- All element nodes of a subtree in document (pre)order, each paired with
its ancestor chain (nearest first). -/
def elemsOf (ancs : List Html) : Html → List (Html × List Html)
  | .text _ => []
  | .elem t a cs => (Html.elem t a cs, ancs) :: elemsOfL (Html.elem t a cs :: ancs) cs
/-- Element nodes of a node list in document order with ancestor chains. -/
def elemsOfL (ancs : List Html) : List Html → List (Html × List Html)
  | [] => []
  | c :: cs => elemsOf ancs c ++ elemsOfL ancs cs
end

/-! ## The CSS selector subset used by the crawlers -/

/-- The CSS selector constructs appearing in the crawlers. -/
inductive Sel where
  | tagIs (t : String)
  | classWord (c : String)
  | classHas (s : String)
  | idStarts (p : String)
  | attrPresent (a : String)
  | attrHas (a s : String)
  | attrIs (a v : String)
  | both (p q : Sel)
  | neg (p : Sel)
  | under (anc p : Sel)

/-- Ancestor chains paired with the chain above each ancestor. -/
def ancTails : List Html → List (Html × List Html)
  | [] => []
  | a :: rest => (a, rest) :: ancTails rest

/-- Does the element with the given ancestor chain match the selector?
Mirrors soupsieve semantics for the constructs in `Sel`. -/
def selMatches (ancs : List Html) (e : Html) : Sel → Bool
  | .tagIs t => e.tagOf = t
  | .classWord c => e.classList.contains c
  | .classHas s => pyContains e.classRaw s
  | .idStarts p =>
    match e.attr? "id" with
    | some i => pyStarts i p
    | none => false
  | .attrPresent a => (e.attr? a).isSome
  | .attrHas a s =>
    match e.attr? a with
    | some v => pyContains v s
    | none => false
  | .attrIs a v => e.attr? a = some v
  | .both p q => selMatches ancs e p && selMatches ancs e q
  | .neg p => !selMatches ancs e p
  | .under anc p =>
    selMatches ancs e p && (ancTails ancs).any (fun x => selMatches x.2 x.1 anc)

/-- soup.select with a comma-separated selector list: all matching elements
in document order. -/
def selectAll (doc : List Html) (sels : List Sel) : List Html :=
  ((elemsOfL [] doc).filter (fun x => sels.any (selMatches x.2 x.1))).map (fun x => x.1)

/-- soup.select_one: first match in document order. -/
def selectOne (doc : List Html) (sels : List Sel) : Option Html :=
  (selectAll doc sels).head?

/-- element.select restricted to the descendants of the element. -/
def selectAllIn (e : Html) (sels : List Sel) : List Html :=
  match e with
  | .elem t a cs =>
    ((elemsOfL [Html.elem t a cs] cs).filter (fun x => sels.any (selMatches x.2 x.1))).map (fun x => x.1)
  | .text _ => []

/-- element.select_one restricted to the descendants of the element. -/
def selectOneIn (e : Html) (sels : List Sel) : Option Html :=
  (selectAllIn e sels).head?

/-! ## Records -/

/-- A field value of a crawler record: Python None, strings, booleans, and
the one nested mapping appearing in the code (the uneed socials dict of
string keys and string values). -/
inductive Value where
  | null
  | str (s : String)
  | bool (b : Bool)
  | obj (fields : List (String × String))
deriving DecidableEq, Repr

/-- A record: a Python dict in insertion order. -/
abbrev Record := List (String × Value)

/-- dict.get k with default None. -/
def dget (r : Record) (k : String) : Value :=
  ((r.lookup k).getD Value.null)

/-- Python dict key-membership test. -/
def dhasKey (r : Record) (k : String) : Bool :=
  r.any (fun kv => kv.1 = k)

/-- Python dict assignment d[k] = v: update in place if the key exists,
append otherwise. -/
def dinsert (r : Record) (k : String) (v : Value) : Record :=
  if dhasKey r k then r.map (fun kv => if kv.1 = k then (k, v) else kv)
  else r ++ [(k, v)]

/-- Removal of a key from a record (used to compare records up to one
field). -/
def eraseKey (k : String) : Record → Record
  | [] => []
  | kv :: r => if kv.1 = k then eraseKey k r else kv :: eraseKey k r

/-- Optional string to record value (Python None or a str). -/
def optV : Option String → Value
  | none => Value.null
  | some s => Value.str s

/-- Python truthiness of a record value. -/
def truthyV : Value → Bool
  | Value.null => false
  | Value.str s => !s.data.isEmpty
  | Value.bool b => b
  | Value.obj fs => !fs.isEmpty

/-! ## The fetch retry loop

fetch(url, retries) is textually identical in the betalist, arabnet,
companies_house and uneed crawlers.  A GET request is modelled by an oracle
giving, per attempt index, the HTTP status and body, a timeout, or another
exception raised inside the try block. -/

/-- Outcome of one session.get attempt, indexed by the retry counter. -/
inductive Resp where
  | status (code : Nat) (body : String)
  | timeout
  | exc

/-- Observable result of a fetch call: the returned value, the number of
GET attempts performed, and the back-off sleeps (2 ^ retries seconds)
executed on 429 responses, in order. -/
structure FetchOut where
  result : Option String
  attempts : Nat
  backoffs : List Nat
deriving DecidableEq, Repr

/-- The body of fetch after the session check: on 200 return the body; on
429 sleep 2 ^ retries and recurse while retries < max_retries; on another
status return None; on timeout recurse while retries < max_retries; on any
other exception return None. -/
def fetchGo (m : Nat) (resp : Nat → Resp) (r : Nat) : FetchOut :=
  match resp r with
  | .status code body =>
    if code = 200 then ⟨some body, 1, []⟩
    else if code = 429 then
      if h : r < m then
        let o := fetchGo m resp (r + 1)
        ⟨o.result, o.attempts + 1, 2 ^ r :: o.backoffs⟩
      else ⟨none, 1, [2 ^ r]⟩
    else ⟨none, 1, []⟩
  | .timeout =>
    if h : r < m then
      let o := fetchGo m resp (r + 1)
      ⟨o.result, o.attempts + 1, o.backoffs⟩
    else ⟨none, 1, []⟩
  | .exc => ⟨none, 1, []⟩
termination_by m + 1 - r
decreasing_by all_goals omega

/-- Result of fetch including the session precondition: with no session the
RuntimeError propagates; otherwise the try/except body runs. -/
inductive FetchResult where
  | ok (o : FetchOut)
  | sessionError
deriving DecidableEq, Repr

/-- fetch(url, retries): raises RuntimeError when the session was not
started, otherwise runs the retry loop. -/
def fetch (sessionStarted : Bool) (m : Nat) (resp : Nat → Resp) (r : Nat) : FetchResult :=
  if !sessionStarted then .sessionError else .ok (fetchGo m resp r)

/-! ## BetalistCrawler._parse_date -/

/-- Month names in the order of the regex alternation of _parse_date. -/
def monthList : List (String × Nat) :=
  [("january", 1), ("february", 2), ("march", 3), ("april", 4), ("may", 5),
   ("june", 6), ("july", 7), ("august", 8), ("september", 9), ("october", 10),
   ("november", 11), ("december", 12)]

/-- Attempt to match the regex (month)\s+(digits) at the start of the char
list, returning the month number and the captured digit group. -/
def monthAt (cs : List Char) : Option (Nat × List Char) :=
  monthList.findSome? (fun mn =>
    if mn.1.data.isPrefixOf cs then
      let rest := cs.drop mn.1.data.length
      let ws := rest.takeWhile isPyWs
      if ws.isEmpty then none
      else
        let ds := (rest.drop ws.length).takeWhile Char.isDigit
        if ds.isEmpty then none else some (mn.2, ds)
    else none)

/-- re.search for the month pattern: leftmost position at which the pattern
matches. -/
def monthSearch : List Char → Option (Nat × List Char)
  | [] => none
  | c :: cs =>
    match monthAt (c :: cs) with
    | some r => some r
    | none => monthSearch cs

/-- datetime.strptime(f"(day) (month_name) (year)", "%d %B %Y") for a digit
string day: %d accepts one or two digits and the constructed date must be
valid. -/
def strptimeDayMonthYear (dayDigits : List Char) (month year : Nat) : Option Date :=
  if dayDigits.length = 0 ∨ 2 < dayDigits.length then none
  else
    let d := digitsVal dayDigits
    if validDate year month d then some ⟨year, month, d⟩ else none

/-- Consume a maximal digit run. -/
def takeDigits (cs : List Char) : List Char × List Char :=
  (cs.takeWhile Char.isDigit, cs.dropWhile Char.isDigit)

/-- Consume the one-or-more whitespace that a literal space in a strptime
format stands for. -/
def expectWs (cs : List Char) : Option (List Char) :=
  let ws := cs.takeWhile isPyWs
  if ws.isEmpty then none else some (cs.drop ws.length)

/-- Consume one literal character. -/
def expectCh (c : Char) : List Char → Option (List Char)
  | x :: xs => if x = c then some xs else none
  | [] => none

/-- Consume a full month name, case-insensitively, as strptime %B. -/
def monthNameAt (cs : List Char) : Option (Nat × List Char) :=
  monthList.findSome? (fun mn =>
    if (cs.take mn.1.data.length).map pyLowerChar = mn.1.data then
      some (mn.2, cs.drop mn.1.data.length)
    else none)

/-- strptime format "%d %B %Y" against the whole string. -/
def parseFmtDBY (cs : List Char) : Option Date := do
  let (ds, r1) := takeDigits cs
  if ds.isEmpty ∨ 2 < ds.length then none
  else
    let r2 ← expectWs r1
    let (m, r3) ← monthNameAt r2
    let r4 ← expectWs r3
    let (ys, r5) := takeDigits r4
    if ys.length ≠ 4 ∨ !r5.isEmpty then none
    else
      let d := digitsVal ds
      let y := digitsVal ys
      if validDate y m d then some ⟨y, m, d⟩ else none

/-- strptime format "%B %d, %Y" against the whole string (the crawler only
ever applies it to comma-free input, where it necessarily fails). -/
def parseFmtBDY (cs : List Char) : Option Date := do
  let (m, r1) ← monthNameAt cs
  let r2 ← expectWs r1
  let (ds, r3) := takeDigits r2
  if ds.isEmpty ∨ 2 < ds.length then none
  else
    let r4 ← expectCh ',' r3
    let r5 ← expectWs r4
    let (ys, r6) := takeDigits r5
    if ys.length ≠ 4 ∨ !r6.isEmpty then none
    else
      let d := digitsVal ds
      let y := digitsVal ys
      if validDate y m d then some ⟨y, m, d⟩ else none

/-- strptime for the three purely numeric formats, given the order of the
day, month and year components and the separator character. -/
def parseFmtNum (sep : Char) (dayFirst yearFirst : Bool) (cs : List Char) : Option Date := do
  let (a, r1) := takeDigits cs
  let r2 ← expectCh sep r1
  let (b, r3) := takeDigits r2
  let r4 ← expectCh sep r3
  let (c, r5) := takeDigits r4
  if !r5.isEmpty then none
  else
    let ok2 (l : List Char) : Bool := !l.isEmpty && l.length ≤ 2
    let ok4 (l : List Char) : Bool := l.length = 4
    if yearFirst then
      if ok4 a ∧ ok2 b ∧ ok2 c then
        let y := digitsVal a
        let m := digitsVal b
        let d := digitsVal c
        if validDate y m d then some ⟨y, m, d⟩ else none
      else none
    else
      if ok2 a ∧ ok2 b ∧ ok4 c then
        let y := digitsVal c
        let m := digitsVal (if dayFirst then b else a)
        let d := digitsVal (if dayFirst then a else b)
        if validDate y m d then some ⟨y, m, d⟩ else none
      else none

/-- The fallback format list of _parse_date, tried in order:
"%d %B %Y", "%B %d, %Y", "%d/%m/%Y", "%Y-%m-%d", "%d-%m-%Y". -/
def tryFormats (s : String) : Option Date :=
  match parseFmtDBY s.data with
  | some d => some d
  | none =>
    match parseFmtBDY s.data with
    | some d => some d
    | none =>
      match parseFmtNum '/' true false s.data with
      | some d => some d
      | none =>
        match parseFmtNum '-' true true s.data with
        | some d => some d
        | none => parseFmtNum '-' true false s.data

/-- BetalistCrawler._parse_date: strip, search for an explicit month-day
pattern and resolve it in the current year; otherwise resolve "today" and
"yesterday" relative to the current date; otherwise try the fallback
formats on the comma-stripped text; otherwise None.  The current date
(datetime.now()) is the explicit `today` parameter. -/
def betalistParseDate (today : Date) (dateText : String) : Option String :=
  let t := pyStrip dateText
  let viaMonth : Option Date :=
    match monthSearch (pyLower t).data with
    | some md =>
      strptimeDayMonthYear (pyRstripChars (String.mk md.2) ['s', 't', 'n', 'd', 'r', 'h']).data
        md.1 today.year
    | none => none
  match viaMonth with
  | some d => some (fmtDMY d)
  | none =>
    let low := pyLower t
    if pyContains low "today" then some (fmtDMY today)
    else if pyContains low "yesterday" then some (fmtDMY (dayBefore today))
    else
      match tryFormats (pyStrip (pyReplace t "," "")) with
      | some d => some (fmtDMY d)
      | none => none

/-! ## ArabnetCrawler.parse_page

BeautifulSoup(html, "html.parser") is the `soup` parameter, urljoin the
`uj` parameter, and datetime.utcnow().isoformat() the `ts` parameter. -/

/-- The arabnet container selector
"[class*=company], [class*=startup], [class*=item]". -/
def arabnetContainerSel : List Sel :=
  [Sel.classHas "company", Sel.classHas "startup", Sel.classHas "item"]

/-- The arabnet title selector "[class*=title], h1, h2, h3". -/
def arabnetTitleSel : List Sel :=
  [Sel.classHas "title", Sel.tagIs "h1", Sel.tagIs "h2", Sel.tagIs "h3"]

/-- The arabnet description selector "[class*=description], p". -/
def arabnetDescSel : List Sel :=
  [Sel.classHas "description", Sel.tagIs "p"]

/-- _extract_text: text of the first descendant matching the selector, or
None when nothing matches. -/
def extractText (e : Html) (sels : List Sel) : Option String :=
  match selectOneIn e sels with
  | some f => some (getTextStrip f)
  | none => none

/-- _extract_link: the href of the first anchor descendant resolved against
the base URL, when present and non-empty. -/
def extractLink (uj : String → String → String) (e : Html) (baseUrl : String) :
    Option String :=
  match selectOneIn e [Sel.tagIs "a"] with
  | some a =>
    match a.attr? "href" with
    | some h => if !h.data.isEmpty then some (uj baseUrl h) else none
    | none => none
  | none => none

/-- The record built for one arabnet container, admitted only when the
title or the description is truthy. -/
def arabnetItem (uj : String → String → String) (url ts : String) (item : Html) :
    Option Record :=
  let title := extractText item arabnetTitleSel
  let descr := extractText item arabnetDescSel
  let link := extractLink uj item url
  let data : Record :=
    [("source", Value.str "arabnet"), ("url", Value.str url),
     ("scraped_at", Value.str ts), ("title", optV title),
     ("description", optV descr), ("link", optV link)]
  if truthyV (dget data "title") || truthyV (dget data "description") then some data
  else none

/-- ArabnetCrawler.parse_page. -/
def arabnetParsePage (soup : String → List Html) (uj : String → String → String)
    (ts : String) (html url : String) : List Record :=
  (selectAll (soup html) arabnetContainerSel).filterMap (arabnetItem uj url ts)

/-! ## BetalistCrawler.parse_page -/

/-- The betalist container selector div.block[id^=startup-]. -/
def betalistContainerSel : List Sel :=
  [Sel.both (Sel.tagIs "div") (Sel.both (Sel.classWord "block") (Sel.idStarts "startup-"))]

/-- The betalist title selector a.font-medium. -/
def betalistTitleSel : List Sel :=
  [Sel.both (Sel.tagIs "a") (Sel.classWord "font-medium")]

/-- The betalist description selector "a.text-gray-500, a.dark\:text-gray-400". -/
def betalistDescSel : List Sel :=
  [Sel.both (Sel.tagIs "a") (Sel.classWord "text-gray-500"),
   Sel.both (Sel.tagIs "a") (Sel.classWord "dark:text-gray-400")]

/-- The date-header walk of parse_page over soup.find_all("div"): a div
with classes col-span-full and text-3xl updates the current date via
_parse_date; a div whose id starts with startup- is mapped to the current
date when that date is truthy. -/
def betalistDateMapGo (today : Date) : List Html → Option String → List (String × String)
  | [], _ => []
  | e :: rest, cur =>
    if e.classList.contains "col-span-full" ∧ e.classList.contains "text-3xl" then
      betalistDateMapGo today rest (betalistParseDate today (getTextStrip e))
    else if pyStarts ((e.attr? "id").getD "") "startup-" then
      match cur with
      | some d =>
        if !d.data.isEmpty then
          ((e.attr? "id").getD "", d) :: betalistDateMapGo today rest (some d)
        else betalistDateMapGo today rest (some d)
      | none => betalistDateMapGo today rest none
    else betalistDateMapGo today rest cur

/-- date_map.get: Python dict lookup, last assignment wins. -/
def dmLookup (m : List (String × String)) (k : String) : Option String :=
  ((m.filter (fun kv => kv.1 = k)).map (fun kv => kv.2)).getLast?

/-- The logo extraction of parse_page: src, else the first srcset token
(an IndexError escapes to the per-item handler when srcset is whitespace
only), resolved against the page URL when truthy. -/
def betalistLogo (uj : String → String → String) (url : String) (item : Html) :
    Except Unit (Option String) :=
  match selectOneIn item [Sel.tagIs "img"] with
  | none => Except.ok none
  | some im =>
    let src := im.attr? "src"
    let step : Except Unit (Option String) :=
      if !truthyS src ∧ truthyS (im.attr? "srcset") then
        let srcset := (im.attr? "srcset").getD ""
        if !srcset.data.isEmpty then
          match (pySplitWs srcset).head? with
          | some tok => Except.ok (some tok)
          | none => Except.error ()
        else Except.ok src
      else Except.ok src
    match step with
    | Except.error e => Except.error e
    | Except.ok l =>
      match l with
      | some s => if !s.data.isEmpty then Except.ok (some (uj url s)) else Except.ok (some s)
      | none => Except.ok none

/-- The record built for one betalist container: the per-item try/except
drops the container on an extraction error; otherwise the record is kept
when title or link is truthy, with None-valued fields removed. -/
def betalistItem (uj : String → String → String) (url ts : String)
    (dm : List (String × String)) (item : Html) : Option Record :=
  match betalistLogo uj url item with
  | Except.error _ => none
  | Except.ok logo =>
    let sid := pyReplace ((item.attr? "id").getD "") "startup-" ""
    let titleElem := selectOneIn item betalistTitleSel
    let title := titleElem.map getTextStrip
    let descr := (selectOneIn item betalistDescSel).map getTextStrip
    let link : Option String :=
      match titleElem with
      | some te =>
        match te.attr? "href" with
        | some h => if !h.data.isEmpty then some (uj url h) else none
        | none => none
      | none => none
    let dateLaunched := dmLookup dm ((item.attr? "id").getD "")
    let data : Record :=
      [("source", Value.str "betalist"), ("url", Value.str url),
       ("scraped_at", Value.str ts), ("startup_id", Value.str sid),
       ("title", optV title), ("description", optV descr), ("link", optV link),
       ("logo", optV logo), ("date_launched", optV dateLaunched)]
    if truthyV (dget data "title") || truthyV (dget data "link") then
      some (data.filter (fun kv => kv.2 ≠ Value.null))
    else none

/-- BetalistCrawler.parse_page: build the date map from the div walk, then
extract every div.block[id^=startup-] container. -/
def betalistParsePage (soup : String → List Html) (uj : String → String → String)
    (today : Date) (ts : String) (html url : String) : List Record :=
  let doc := soup html
  let dm := betalistDateMapGo today (selectAll doc [Sel.tagIs "div"]) none
  (selectAll doc betalistContainerSel).filterMap (betalistItem uj url ts dm)

/-! ## BetalistCrawler state, crawl and save_json -/

/-- The mutable attributes set by BetalistCrawler.__init__. -/
structure BetalistState where
  output_dir : String
  rate_limit : ℚ
  max_retries : Nat
  timeout : Nat
  sessionOpen : Bool
  data : List Record

/-- BetalistCrawler.__init__: configuration stored, session unset, data
list created empty (once per instance, not per crawl). -/
def mkBetalist (outputDir : String) (rateLimit : ℚ) (maxRetries timeoutSec : Nat) :
    BetalistState :=
  ⟨outputDir, rateLimit, maxRetries, timeoutSec, false, []⟩

/-- BetalistCrawler.BASE_URL. -/
def betalistBaseUrl : String := "https://betalist.com/"

/-- url.rstrip("/"). -/
def rstripSlash (s : String) : String := pyRstripChars s ['/']

/-- The page URL of one pagination step: the start URL for page 1, else
url.rstrip("/") + "/startups/page/" + page. -/
def betalistPageUrl (url : String) (p : Nat) : String :=
  if p = 1 then url else rstripSlash url ++ "/startups/page/" ++ toString p

/-- The pagination loop of crawl: fetch each page, extend the instance data
with the parse results of truthy fetches, stop at the first falsy fetch.
The fetch outcome per URL is the `pageFetch` oracle. -/
def betalistCrawlGo (pageFetch : String → Option String) (soup : String → List Html)
    (uj : String → String → String) (today : Date) (ts : String) (url : String) :
    List Nat → List Record → List Record
  | [], data => data
  | p :: ps, data =>
    let pu := betalistPageUrl url p
    match pageFetch pu with
    | some h =>
      if !h.data.isEmpty then
        betalistCrawlGo pageFetch soup uj today ts url ps
          (data ++ betalistParsePage soup uj today ts h pu)
      else data
    | none => data

/-- BetalistCrawler.crawl(start_url, max_pages): runs the pagination loop
over pages 1..max_pages on self.data and returns self.data. -/
def betalistCrawl (st : BetalistState) (pageFetch : String → Option String)
    (soup : String → List Html) (uj : String → String → String) (today : Date)
    (ts : String) (startUrl : Option String) (maxPages : Nat) :
    BetalistState × List Record :=
  let url :=
    match startUrl with
    | some u => if !u.data.isEmpty then u else betalistBaseUrl
    | none => betalistBaseUrl
  let newData := betalistCrawlGo pageFetch soup uj today ts url (List.range' 1 maxPages) st.data
  ({ st with data := newData }, newData)

/-- Modelled from the spec: the records accumulated by one crawl invocation
alone — the concatenation of the parse results of the successfully fetched
pages, stopping without error at the first null fetch. -/
def betalistCrawlCollect (pageFetch : String → Option String) (soup : String → List Html)
    (uj : String → String → String) (today : Date) (ts : String) (url : String) :
    List Nat → List Record
  | [] => []
  | p :: ps =>
    let pu := betalistPageUrl url p
    match pageFetch pu with
    | some h =>
      if !h.data.isEmpty then
        betalistParsePage soup uj today ts h pu ++
          betalistCrawlCollect pageFetch soup uj today ts url ps
      else []
    | none => []

/-- Rendering of one JSON string (ensure_ascii=False; the record data in
scope needs no escapes). -/
def jsonStr (s : String) : String := "\"" ++ s ++ "\""

/-- Rendering of one record value as json.dump would (up to whitespace). -/
def jsonValue : Value → String
  | Value.null => "null"
  | Value.str s => jsonStr s
  | Value.bool b => if b then "true" else "false"
  | Value.obj fs =>
    "\x7b" ++ String.intercalate ", " (fs.map (fun kv => jsonStr kv.1 ++ ": " ++ jsonStr kv.2)) ++ "\x7d"

/-- Rendering of one record. -/
def jsonRecord (r : Record) : String :=
  "\x7b" ++ String.intercalate ", " (r.map (fun kv => jsonStr kv.1 ++ ": " ++ jsonValue kv.2)) ++ "\x7d"

/-- Rendering of the full record list, as json.dump(self.data, ...) up to
whitespace. -/
def jsonOfData (data : List Record) : String :=
  "[" ++ String.intercalate ", " (data.map jsonRecord) ++ "]"

/-- BetalistCrawler.save_json: pick the filename (timestamped when the
argument is falsy), write the serialized data, touch nothing else.  The
result is the state after the call, the file path and the file content;
datetime.now() for the default name is the `stamp` parameter. -/
def betalistSaveJson (st : BetalistState) (filename : Option String) (stamp : String) :
    BetalistState × String × String :=
  let fn :=
    match filename with
    | some f => if !f.data.isEmpty then f else "betalist_" ++ stamp ++ ".json"
    | none => "betalist_" ++ stamp ++ ".json"
  (st, st.output_dir ++ "/" ++ fn, jsonOfData st.data)

/-! ## ArabnetCrawler.save_csv -/

/-- One CSV cell as the csv module writes a value (None becomes the empty
cell, other values go through str). -/
def csvCell : Value → String
  | Value.null => ""
  | Value.str s => s
  | Value.bool b => if b then "True" else "False"
  | Value.obj fs => jsonValue (Value.obj fs)

/-- The row DictWriter produces for a record: one cell per field name, the
restval None for missing keys. -/
def csvRowOf (keys : List String) (r : Record) : List String :=
  keys.map (fun k => csvCell (dget r k))

/-- DictWriter raises ValueError when a record holds a key outside the
fieldnames; this check guards each writerow. -/
def recordFitsKeys (keys : List String) (r : Record) : Bool :=
  r.all (fun kv => keys.contains kv.1)

/-- writer.writerows: rows are emitted one by one until a record with an
extra key raises; the rows already written stay in the file and the error
propagates. -/
def csvWriteRows (keys : List String) : List Record → List (List String) × Option String
  | [] => ([], none)
  | r :: rs =>
    if recordFitsKeys keys r then
      let rest := csvWriteRows keys rs
      (csvRowOf keys r :: rest.1, rest.2)
    else ([], some "dict contains fields not in fieldnames")

/-- ArabnetCrawler.save_csv on self.data: derive the fieldnames from the
first record, write the header then the rows; with no data return the path
without writing a file.  The result is the file path, the rows written
(header first) and the ValueError, if one escaped. -/
def arabnetSaveCsv (data : List Record) (outputDir : String) (filename : Option String)
    (stamp : String) : String × List (List String) × Option String :=
  let fn :=
    match filename with
    | some f => if !f.data.isEmpty then f else "arabnet_" ++ stamp ++ ".csv"
    | none => "arabnet_" ++ stamp ++ ".csv"
  let fp := outputDir ++ "/" ++ fn
  match data with
  | [] => (fp, [], none)
  | r :: rs =>
    let keys := r.map (fun kv => kv.1)
    let rows := csvWriteRows keys (r :: rs)
    (fp, keys :: rows.1, rows.2)

/-! ## Input-list readers -/

/-- CrunchbaseProfileCrawler.read_profiles on the lines of profiles.txt:
keep each stripped line that is non-empty and not a "#" comment. -/
def readProfiles : List String → List String
  | [] => []
  | line :: rest =>
    let l := pyStrip line
    if !l.data.isEmpty ∧ ¬ pyStarts l "#" then l :: readProfiles rest
    else readProfiles rest

/-- The companies.txt reader of the companies_house main driver:
[line.strip() for line in f if line.strip()] — blank lines dropped, nothing
else filtered. -/
def companiesHouseReadCompanies : List String → List String
  | [] => []
  | line :: rest =>
    if !(pyStrip line).data.isEmpty then pyStrip line :: companiesHouseReadCompanies rest
    else companiesHouseReadCompanies rest

/-! ## UneedCrawler.parse_tool_page -/

/-- The uneed tool-name selector fallback list. -/
def uneedNameSelectors : List (List Sel) :=
  [[Sel.tagIs "h1"],
   [Sel.under (Sel.classHas "tool") (Sel.tagIs "h1")],
   [Sel.under (Sel.classHas "product") (Sel.tagIs "h1")],
   [Sel.classHas "title"],
   [Sel.classWord "tool-name"],
   [Sel.classWord "product-name"],
   [Sel.attrHas "data-testid" "title"],
   [Sel.attrHas "data-testid" "name"]]

/-- The tool-name loop: first selector whose match has non-empty text. -/
def uneedToolName (doc : List Html) : Option String :=
  uneedNameSelectors.findSome? (fun sels =>
    match selectOne doc sels with
    | some e =>
      let t := getTextStrip e
      if !t.data.isEmpty then some t else none
    | none => none)

/-- The uneed description selector fallback list; the flag marks the meta
selectors, dispatched on in the loop by selector.startswith("meta"). -/
def uneedDescSelectors : List (Bool × List Sel) :=
  [(false, [Sel.classHas "description"]),
   (false, [Sel.classHas "overview"]),
   (false, [Sel.classHas "about"]),
   (false, [Sel.classHas "summary"]),
   (true, [Sel.both (Sel.tagIs "meta") (Sel.attrIs "name" "description")]),
   (true, [Sel.both (Sel.tagIs "meta") (Sel.attrIs "property" "og:description")]),
   (false, [Sel.classWord "lead"]),
   (false, [Sel.under (Sel.tagIs "article") (Sel.tagIs "p")]),
   (false, [Sel.under (Sel.tagIs "main") (Sel.tagIs "p")])]

/-- The overview loop: meta selectors take a truthy content attribute,
text selectors need more than 20 characters of text. -/
def uneedOverview (doc : List Html) : Option String :=
  uneedDescSelectors.findSome? (fun ms =>
    if ms.1 then
      match selectOne doc ms.2 with
      | some e =>
        match e.attr? "content" with
        | some c => if !c.data.isEmpty then some c else none
        | none => none
      | none => none
    else
      match selectOne doc ms.2 with
      | some e =>
        let t := getTextStrip e
        if !t.data.isEmpty ∧ 20 < t.data.length then some t else none
      | none => none)

/-- The social/own domains filtered out of website candidates. -/
def uneedSocialDomains : List String :=
  ["twitter.com", "x.com", "linkedin.com", "facebook.com", "instagram.com",
   "uneed.best", "youtube.com"]

/-- The website selector fallback list. -/
def uneedWebsiteSelectors : List (List Sel) :=
  [[Sel.both (Sel.tagIs "a") (Sel.classHas "website")],
   [Sel.both (Sel.tagIs "a") (Sel.classHas "visit")],
   [Sel.both (Sel.tagIs "a") (Sel.classHas "external")],
   [Sel.both (Sel.tagIs "a") (Sel.both (Sel.attrHas "href" "http")
      (Sel.both (Sel.neg (Sel.attrHas "href" "uneed.best"))
        (Sel.both (Sel.neg (Sel.attrHas "href" "twitter"))
          (Sel.both (Sel.neg (Sel.attrHas "href" "linkedin"))
            (Sel.both (Sel.neg (Sel.attrHas "href" "facebook"))
              (Sel.neg (Sel.attrHas "href" "instagram")))))))]]

/-- The website loop: first candidate with a truthy href containing no
social or uneed.best domain. -/
def uneedWebsite (doc : List Html) : Option String :=
  uneedWebsiteSelectors.findSome? (fun sels =>
    match selectOne doc sels with
    | some e =>
      match e.attr? "href" with
      | some h =>
        if !h.data.isEmpty then
          if !(uneedSocialDomains.any (fun d => pyContains h d)) then some h else none
        else none
      | none => none
    | none => none)

/-- The publisher selector fallback list. -/
def uneedPublisherSelectors : List (List Sel) :=
  [[Sel.classHas "publisher"], [Sel.classHas "maker"], [Sel.classHas "creator"],
   [Sel.classHas "author"], [Sel.classHas "submitter"],
   [Sel.both (Sel.tagIs "a") (Sel.attrHas "href" "/user/")],
   [Sel.both (Sel.tagIs "a") (Sel.attrHas "href" "/profile/")]]

/-- The publisher loop: first candidate with non-empty text; its link is
its own href when the element is an anchor, else the first anchor
descendant with an href. -/
def uneedPublisher (uj : String → String → String) (toolUrl : String) (doc : List Html) :
    Option (String × Option String) :=
  uneedPublisherSelectors.findSome? (fun sels =>
    match selectOne doc sels with
    | some e =>
      let nm := getTextStrip e
      if !nm.data.isEmpty then
        if e.tagOf = "a" then some (nm, some (uj toolUrl ((e.attr? "href").getD "")))
        else
          match (selectAllIn e [Sel.both (Sel.tagIs "a") (Sel.attrPresent "href")]).head? with
          | some a => some (nm, some (uj toolUrl ((a.attr? "href").getD "")))
          | none => some (nm, none)
      else none
    | none => none)

/-- The launch-date selector fallback list. -/
def uneedDateSelectors : List (List Sel) :=
  [[Sel.tagIs "time"], [Sel.classHas "date"], [Sel.classHas "launch"],
   [Sel.attrPresent "datetime"]]

/-- The launch-date loop: a truthy datetime attribute wins, else non-empty
text. -/
def uneedLaunchDate (doc : List Html) : Option String :=
  uneedDateSelectors.findSome? (fun sels =>
    match selectOne doc sels with
    | some e =>
      let dt := e.attr? "datetime"
      if truthyS dt then some (dt.getD "")
      else
        let t := getTextStrip e
        if !t.data.isEmpty then some t else none
    | none => none)

/-- The category selector list (all matches of every selector feed one
deduplicated list). -/
def uneedCategorySelectors : List (List Sel) :=
  [[Sel.classHas "category"], [Sel.classHas "tag"], [Sel.classHas "label"],
   [Sel.both (Sel.tagIs "a") (Sel.attrHas "href" "/category/")],
   [Sel.both (Sel.tagIs "a") (Sel.attrHas "href" "/tag/")]]

/-- The inner category loop: append each non-empty unseen text. -/
def uneedCategoriesGo (cats : List String) : List Html → List String
  | [] => cats
  | e :: es =>
    let t := getTextStrip e
    if !t.data.isEmpty ∧ ¬ cats.contains t then uneedCategoriesGo (cats ++ [t]) es
    else uneedCategoriesGo cats es

/-- The accumulated category list over all category selectors. -/
def uneedCategories (doc : List Html) : List String :=
  uneedCategorySelectors.foldl (fun acc sels => uneedCategoriesGo acc (selectAll doc sels)) []

/-- The pricing selector fallback list. -/
def uneedPricingSelectors : List (List Sel) :=
  [[Sel.classHas "price"], [Sel.classHas "pricing"], [Sel.classHas "cost"],
   [Sel.classHas "plan"]]

/-- The pricing loop: first candidate with non-empty text. -/
def uneedPricing (doc : List Html) : Option String :=
  uneedPricingSelectors.findSome? (fun sels =>
    match selectOne doc sels with
    | some e =>
      let t := getTextStrip e
      if !t.data.isEmpty then some t else none
    | none => none)

/-- The socials walk over soup.find_all("a", href=True): first href per
platform wins, classified by substring tests on the href. -/
def uneedSocialsGo (acc : List (String × String)) : List Html → List (String × String)
  | [] => acc
  | a :: rest =>
    let h := (a.attr? "href").getD ""
    let acc2 :=
      if pyContains h "twitter.com" || pyContains h "x.com" then
        if ¬ acc.any (fun kv => kv.1 = "twitter") then acc ++ [("twitter", h)] else acc
      else if pyContains h "linkedin.com" then
        if ¬ acc.any (fun kv => kv.1 = "linkedin") then acc ++ [("linkedin", h)] else acc
      else if pyContains h "facebook.com" then
        if ¬ acc.any (fun kv => kv.1 = "facebook") then acc ++ [("facebook", h)] else acc
      else if pyContains h "instagram.com" then
        if ¬ acc.any (fun kv => kv.1 = "instagram") then acc ++ [("instagram", h)] else acc
      else if pyContains h "github.com" then
        if ¬ acc.any (fun kv => kv.1 = "github") then acc ++ [("github", h)] else acc
      else if pyContains h "youtube.com" || pyContains h "youtu.be" then
        if ¬ acc.any (fun kv => kv.1 = "youtube") then acc ++ [("youtube", h)] else acc
      else acc
    uneedSocialsGo acc2 rest

/-- The socials dict of one tool page. -/
def uneedSocials (doc : List Html) : List (String × String) :=
  uneedSocialsGo [] (selectAll doc [Sel.both (Sel.tagIs "a") (Sel.attrPresent "href")])

/-- The for-sale extraction: the text of a [class*=for-sale]/[class*=forsale]
match, else the boolean True when "for sale" occurs in the lowered raw
HTML. -/
def uneedForSale (htmlRaw : String) (doc : List Html) : Option Value :=
  match selectOne doc [Sel.classHas "for-sale", Sel.classHas "forsale"] with
  | some e => some (Value.str (getTextStrip e))
  | none =>
    if pyContains (pyLower htmlRaw) "for sale" then some (Value.bool true) else none

/-- The dt/dd pair walk of one dl element: normalized keys, inserted when
key and value are non-empty and the key is new. -/
def uneedDlPairsGo (data : Record) : List (Html × Html) → Record
  | [] => data
  | p :: rest =>
    let key := pyReplace (pyReplace (pyLower (getTextStrip p.1)) " " "_") "-" "_"
    let v := getTextStrip p.2
    if !key.data.isEmpty ∧ !v.data.isEmpty ∧ ¬ dhasKey data key then
      uneedDlPairsGo (dinsert data key (Value.str v)) rest
    else uneedDlPairsGo data rest

/-- The dl metadata walk over soup.find_all("dl"). -/
def uneedDlMeta (data : Record) (doc : List Html) : Record :=
  (selectAll doc [Sel.tagIs "dl"]).foldl
    (fun d dl => uneedDlPairsGo d ((selectAllIn dl [Sel.tagIs "dt"]).zip (selectAllIn dl [Sel.tagIs "dd"])))
    data

/-- UneedCrawler.parse_tool_page: the field extractions in source order on
the base record, then the final filter removing None and empty values. -/
def uneedParseToolPage (soup : String → List Html) (uj : String → String → String)
    (ts : String) (html toolUrl : String) : Record :=
  let doc := soup html
  let d0 : Record :=
    [("source", Value.str "uneed_best"), ("scraped_at", Value.str ts),
     ("tool_url", Value.str toolUrl)]
  let d1 := match uneedToolName doc with
    | some n => dinsert d0 "tool_name" (Value.str n)
    | none => d0
  let d2 := match uneedOverview doc with
    | some o => dinsert d1 "overview" (Value.str o)
    | none => d1
  let d3 := match uneedWebsite doc with
    | some w => dinsert d2 "website" (Value.str w)
    | none => d2
  let d4 := match uneedPublisher uj toolUrl doc with
    | some nl =>
      let x := dinsert d3 "publisher_name" (Value.str nl.1)
      match nl.2 with
      | some l => dinsert x "publisher_link" (Value.str l)
      | none => x
    | none => d3
  let d5 := match uneedLaunchDate doc with
    | some l => dinsert d4 "launch_date" (Value.str l)
    | none => d4
  let d6 :=
    let cats := uneedCategories doc
    if !cats.isEmpty then
      dinsert d5 "category"
        (Value.str (if 1 < cats.length then String.intercalate ", " cats else cats.headD ""))
    else d5
  let d7 := match uneedPricing doc with
    | some p => dinsert d6 "pricing" (Value.str p)
    | none => d6
  let d8 :=
    let soc := uneedSocials doc
    if !soc.isEmpty then dinsert d7 "socials" (Value.obj soc) else d7
  let d9 := match uneedForSale html doc with
    | some v => dinsert d8 "for_sale" v
    | none => d8
  let d10 := uneedDlMeta d9 doc
  d10.filter (fun kv => kv.2 ≠ Value.null ∧ kv.2 ≠ Value.str "")

/-! ## General helper lemmas -/

/-- String append acts on the underlying character lists. -/
theorem strData_append (a b : String) : (a ++ b).data = a.data ++ b.data := rfl

/-- Length of a filterMap counted through a predicate deciding success. -/
theorem length_filterMap_eq_countP {α β : Type} (f : α → Option β) (p : α → Bool)
    (h : ∀ a, (f a).isSome = p a) (l : List α) :
    (l.filterMap f).length = l.countP p := by
  induction l with
  | nil => rfl
  | cons a t ih =>
    rw [List.filterMap_cons, List.countP_cons]
    cases hfa : f a with
    | none =>
      have hp := h a
      rw [hfa] at hp
      simp [← hp, ih]
    | some b =>
      have hp := h a
      rw [hfa] at hp
      simp [← hp, ih]

/-- Removing a key is a filter on the key component. -/
theorem eraseKey_eq_filter (k : String) (r : Record) :
    eraseKey k r = r.filter (fun kv => !(kv.1 == k)) := by
  induction r with
  | nil => rfl
  | cons kv t ih =>
    by_cases h : kv.1 = k
    · simp [eraseKey, h, ih]
    · simp [eraseKey, h, ih]

/-- Truthiness commutes with the Option-to-Value embedding. -/
theorem truthyV_optV (o : Option String) : truthyV (optV o) = truthyS o := by
  cases o <;> rfl

/-! ## Claim C1 -/

/-- The retry loop under unbroken 429 responses, for any starting retry
counter: the remaining m + 1 - r attempts all happen, each followed by its
exponential back-off sleep, and the result is null. -/
theorem fetchGo_all429 (m : Nat) (bodies : Nat → String) :
    ∀ k r, r ≤ m → m - r = k →
      fetchGo m (fun n => Resp.status 429 (bodies n)) r =
        ⟨none, m + 1 - r, (List.range' r (m + 1 - r)).map (fun i => 2 ^ i)⟩ := by
  intro k
  induction k with
  | zero =>
    intro r hr hk
    have hrm : r = m := by omega
    subst hrm
    rw [fetchGo]
    have h1 : r + 1 - r = 1 := by omega
    simp [h1, List.range']
  | succ k ih =>
    intro r hr hk
    have hlt : r < m := by omega
    rw [fetchGo]
    have hrec := ih (r + 1) (by omega) (by omega)
    simp only [hrec]
    have h1 : m + 1 - r = (m + 1 - (r + 1)) + 1 := by omega
    rw [h1, List.range'_succ]
    simp [hlt]

/-- C1: with an open session and every GET answered by HTTP 429, fetch
performs exactly max_retries + 1 attempts (hence at most that many), sleeps
2 ^ retry_count before each retry (the back-off sleeps are 2 ^ 0, ...,
2 ^ max_retries in order, the last one preceding the final give-up), and
returns null. -/
theorem c1_fetch_429_retry_bound (m : Nat) (bodies : Nat → String) :
    fetch true m (fun n => Resp.status 429 (bodies n)) 0 =
      FetchResult.ok ⟨none, m + 1, (List.range (m + 1)).map (fun i => 2 ^ i)⟩ := by
  have h := fetchGo_all429 m bodies m 0 (by omega) (by omega)
  simp only [Nat.sub_zero] at h
  rw [fetch]
  simp only [Bool.not_true, Bool.false_eq_true, if_false, h, List.range_eq_range']

/-! ## Claim C7 -/

/-- The retry loop under unbroken timeouts: the remaining attempts happen
with no back-off sleeps and the result is null. -/
theorem fetchGo_allTimeout (m : Nat) :
    ∀ k r, r ≤ m → m - r = k →
      fetchGo m (fun _ => Resp.timeout) r = ⟨none, m + 1 - r, []⟩ := by
  intro k
  induction k with
  | zero =>
    intro r hr hk
    have hrm : r = m := by omega
    subst hrm
    rw [fetchGo]
    have h1 : r + 1 - r = 1 := by omega
    simp [h1]
  | succ k ih =>
    intro r hr hk
    have hlt : r < m := by omega
    rw [fetchGo]
    have hrec := ih (r + 1) (by omega) (by omega)
    simp only [hrec]
    have h1 : m + 1 - r = (m + 1 - (r + 1)) + 1 := by omega
    simp [hlt, h1]

/-- C7: fetch signals every failure solely by a null return and lets no
exception out, except the session-not-started RuntimeError: without a
session the error propagates; with a session the try body always returns a
value; a non-200 non-429 status returns null after a single attempt; pure
timeouts return null after max_retries + 1 attempts; any other exception
returns null after a single attempt; a 429 at the retry cap returns null
after its back-off sleep. -/
theorem c7_fetch_failure_semantics :
    (∀ (m : Nat) (resp : Nat → Resp) (r : Nat),
      fetch false m resp r = FetchResult.sessionError) ∧
    (∀ (m : Nat) (resp : Nat → Resp) (r : Nat),
      fetch true m resp r = FetchResult.ok (fetchGo m resp r)) ∧
    (∀ (m : Nat) (resp : Nat → Resp) (r code : Nat) (body : String),
      resp r = Resp.status code body → code ≠ 200 → code ≠ 429 →
      fetchGo m resp r = ⟨none, 1, []⟩) ∧
    (∀ m : Nat, fetchGo m (fun _ => Resp.timeout) 0 = ⟨none, m + 1, []⟩) ∧
    (∀ (m : Nat) (resp : Nat → Resp) (r : Nat),
      resp r = Resp.exc → fetchGo m resp r = ⟨none, 1, []⟩) ∧
    (∀ (m : Nat) (resp : Nat → Resp) (body : String),
      resp m = Resp.status 429 body → fetchGo m resp m = ⟨none, 1, [2 ^ m]⟩) := by
  refine ⟨fun m resp r => rfl, fun m resp r => rfl, ?_, ?_, ?_, ?_⟩
  · intro m resp r code body hc h200 h429
    rw [fetchGo, hc]
    simp [h200, h429]
  · intro m
    have h := fetchGo_allTimeout m m 0 (by omega) (by omega)
    simpa using h
  · intro m resp r hc
    rw [fetchGo, hc]
  · intro m resp body hc
    rw [fetchGo, hc]
    simp

/-- C7 witness: the failure cases of fetch at concrete inputs, obtained by
instantiating the theorem. -/
theorem c7_fetch_failure_semantics_witness :
    fetch false 3 (fun _ => Resp.status 404 "x") 0 = FetchResult.sessionError ∧
    fetch true 3 (fun _ => Resp.status 404 "x") 0 =
      FetchResult.ok (fetchGo 3 (fun _ => Resp.status 404 "x") 0) ∧
    fetchGo 3 (fun _ => Resp.status 404 "x") 0 = ⟨none, 1, []⟩ ∧
    fetchGo 3 (fun _ => Resp.timeout) 0 = ⟨none, 4, []⟩ ∧
    fetchGo 3 (fun _ => Resp.exc) 0 = ⟨none, 1, []⟩ ∧
    fetchGo 3 (fun _ => Resp.status 429 "y") 3 = ⟨none, 1, [8]⟩ :=
  ⟨c7_fetch_failure_semantics.1 3 (fun _ => Resp.status 404 "x") 0,
   c7_fetch_failure_semantics.2.1 3 (fun _ => Resp.status 404 "x") 0,
   c7_fetch_failure_semantics.2.2.1 3 (fun _ => Resp.status 404 "x") 0 404 "x" rfl
     (by decide) (by decide),
   c7_fetch_failure_semantics.2.2.2.1 3,
   c7_fetch_failure_semantics.2.2.2.2.1 3 (fun _ => Resp.exc) 0 rfl,
   c7_fetch_failure_semantics.2.2.2.2.2 3 (fun _ => Resp.status 429 "y") "y" rfl⟩

/-! ## Claim C9 -/

/-- C9 counterexample: the companies_house main driver keeps a comment
line — the line "# Acme list" survives into the company list, so not every
name-driven input reader ignores comment lines. -/
theorem c9_counterexample :
    companiesHouseReadCompanies ["# Acme list", "Acme"] = ["# Acme list", "Acme"] ∧
    pyStarts (pyStrip "# Acme list") "#" = true := by decide

/-- C9 (amended): the crunchbase read_profiles reader drops blank lines and
"#" comment lines; the companies_house companies.txt reader drops only
blank lines and keeps comment lines as company names. -/
theorem c9_input_line_filtering :
    (∀ lines : List String,
      readProfiles lines =
        (lines.map pyStrip).filter (fun l => !l.data.isEmpty && !(pyStarts l "#"))) ∧
    (∀ lines : List String,
      companiesHouseReadCompanies lines =
        (lines.map pyStrip).filter (fun l => !l.data.isEmpty)) := by
  constructor
  · intro lines
    induction lines with
    | nil => rfl
    | cons a t ih =>
      simp only [readProfiles, List.map_cons, List.filter_cons]
      by_cases h1 : (pyStrip a).data.isEmpty = true <;>
        by_cases h2 : pyStarts (pyStrip a) "#" = true <;>
          simp [h1, h2, ih]
  · intro lines
    induction lines with
    | nil => rfl
    | cons a t ih =>
      simp only [companiesHouseReadCompanies, List.map_cons, List.filter_cons]
      by_cases h1 : (pyStrip a).data.isEmpty = true <;> simp [h1, ih]

/-! ## Claim C8 -/

/-- Characterization of writerows: the rows of the longest prefix of
records fitting the fieldnames are written, and a ValueError escapes as
soon as some record does not fit. -/
theorem csvWriteRows_spec (keys : List String) (data : List Record) :
    csvWriteRows keys data =
      ((data.takeWhile (recordFitsKeys keys)).map (csvRowOf keys),
       if data.all (recordFitsKeys keys) then none
       else some "dict contains fields not in fieldnames") := by
  induction data with
  | nil => rfl
  | cons r rs ih =>
    by_cases h : recordFitsKeys keys r = true
    · simp [csvWriteRows, h, ih, List.takeWhile_cons, List.all_cons]
    · have h2 : recordFitsKeys keys r = false := by
        revert h; cases recordFitsKeys keys r <;> simp
      simp [csvWriteRows, h2, List.takeWhile_cons, List.all_cons]

/-- C8 counterexample: on records with disjoint keys, save_csv does not
fail implicitly with a header-only or empty file — DictWriter raises
ValueError (the error escapes), and the file already holds the header and
the first row. -/
theorem c8_counterexample :
    ((arabnetSaveCsv [[("a", Value.str "1")], [("b", Value.str "2")]] "data" none "S").2.2).isSome
      = true ∧
    (arabnetSaveCsv [[("a", Value.str "1")], [("b", Value.str "2")]] "data" none "S").2.1 =
      [["a"], ["1"]] := by decide

/-- C8 (amended): save_csv derives the CSV header from the keys of the
first record; records are written (with empty cells for missing keys) up to
the first record holding a key outside the header, at which point
csv.DictWriter raises ValueError, which propagates out of save_csv leaving
the partially written file; no error occurs exactly when every record fits
the header keys. -/
theorem c8_save_csv_headers_and_failure :
    (∀ (r : Record) (rs : List Record) (od : String) (fn : Option String) (st : String),
      (arabnetSaveCsv (r :: rs) od fn st).2.1 =
        (r.map (fun kv => kv.1)) ::
          ((r :: rs).takeWhile (recordFitsKeys (r.map (fun kv => kv.1)))).map
            (csvRowOf (r.map (fun kv => kv.1)))) ∧
    (∀ (r : Record) (rs : List Record) (od : String) (fn : Option String) (st : String),
      (arabnetSaveCsv (r :: rs) od fn st).2.2 =
        if (r :: rs).all (recordFitsKeys (r.map (fun kv => kv.1))) then none
        else some "dict contains fields not in fieldnames") := by
  constructor <;> intro r rs od fn st <;> simp [arabnetSaveCsv, csvWriteRows_spec]

/-! ## Claim C10 -/

/-- C10: save_json leaves the crawler state — the record list and every
configuration field — unchanged, and a repeated save_json serializes the
same record list again. -/
theorem c10_save_json_frame :
    ∀ (st : BetalistState) (fn1 fn2 : Option String) (s1 s2 : String),
      (betalistSaveJson st fn1 s1).1 = st ∧
      (betalistSaveJson (betalistSaveJson st fn1 s1).1 fn2 s2).2.2 = jsonOfData st.data ∧
      (betalistSaveJson st fn1 s1).2.2 = jsonOfData st.data := by
  intro st fn1 fn2 s1 s2
  exact ⟨rfl, rfl, rfl⟩

/-! ## Claim C2 -/

/-- The title of a betalist container, as parse_page reads it. -/
def betalistTitleOf (item : Html) : Option String :=
  (selectOneIn item betalistTitleSel).map getTextStrip

/-- The description of a betalist container, as parse_page reads it. -/
def betalistDescOf (item : Html) : Option String :=
  (selectOneIn item betalistDescSel).map getTextStrip

/-- The link of a betalist container: the href of its title anchor,
resolved against the page URL when truthy. -/
def betalistLinkOf (uj : String → String → String) (url : String) (item : Html) :
    Option String :=
  match selectOneIn item betalistTitleSel with
  | some te =>
    match te.attr? "href" with
    | some h => if !h.data.isEmpty then some (uj url h) else none
    | none => none
  | none => none

/-- Concrete instantiation of the urljoin parameter for closed statements;
the concrete documents below never carry a relative href, so its value is
never consulted. -/
def ujConcat : String → String → String := fun b r => b ++ r

/-- The betalist page of the C2 counterexample: one container whose
description is non-empty but whose title and link are absent. -/
def docC2Beta : List Html :=
  [Html.elem "div" [("class", "block"), ("id", "startup-7")]
     [Html.elem "a" [("class", "block text-gray-500")] [Html.text "Only a description"]]]

/-- C2 counterexample: a betalist container with a non-empty description
(the claimed count M is 1), yet parse_page returns no record, because the
betalist admission rule tests title or link, not title or description. -/
theorem c2_counterexample :
    (selectAll docC2Beta betalistContainerSel).countP
        (fun c => truthyS (betalistTitleOf c) || truthyS (betalistDescOf c)) = 1 ∧
    betalistParsePage (fun _ => docC2Beta) ujConcat ⟨2026, 10, 12⟩ "TSB" "page"
      "https://betalist.com/" = [] := by
  decide

/-- Shape of the record admission test. -/
theorem isSome_ite_record (c : Bool) (x : Record) :
    (if c = true then some x else none).isSome = c := by
  cases c <;> simp

/-- The success of one arabnet container extraction is exactly the truthy
title-or-description test. -/
theorem arabnetItem_isSome (uj : String → String → String) (url ts : String) (c : Html) :
    (arabnetItem uj url ts c).isSome =
      (truthyS (extractText c arabnetTitleSel) || truthyS (extractText c arabnetDescSel)) := by
  simp only [arabnetItem]
  rw [isSome_ite_record]
  show (truthyV (optV (extractText c arabnetTitleSel)) ||
      truthyV (optV (extractText c arabnetDescSel))) =
    (truthyS (extractText c arabnetTitleSel) || truthyS (extractText c arabnetDescSel))
  rw [truthyV_optV, truthyV_optV]

/-- The success of one betalist container extraction: no logo error, and a
truthy title or link. -/
theorem betalistItem_isSome (uj : String → String → String) (url ts : String)
    (dm : List (String × String)) (c : Html) :
    (betalistItem uj url ts dm c).isSome =
      ((betalistLogo uj url c).isOk &&
        (truthyS (betalistTitleOf c) || truthyS (betalistLinkOf uj url c))) := by
  simp only [betalistItem]
  cases hl : betalistLogo uj url c with
  | error e => simp [Except.isOk, Except.toBool]
  | ok logo =>
    dsimp only
    rw [isSome_ite_record]
    simp only [Except.isOk, Except.toBool, Bool.true_and]
    show (truthyV (optV ((selectOneIn c betalistTitleSel).map getTextStrip)) ||
        truthyV (optV (match selectOneIn c betalistTitleSel with
          | some te =>
            match te.attr? "href" with
            | some h => if !h.data.isEmpty then some (uj url h) else none
            | none => none
          | none => none))) =
      (truthyS (betalistTitleOf c) || truthyS (betalistLinkOf uj url c))
    rw [truthyV_optV, truthyV_optV]
    rfl

/-- The arabnet page of the C2 concrete scenario: two div.company
containers, one with a title and a description, one with neither. -/
def docC2Arab : List Html :=
  [Html.elem "div" [("class", "company")]
     [Html.elem "h2" [] [Html.text "Acme"],
      Html.elem "p" [] [Html.text "Great startup"]],
   Html.elem "div" [("class", "company")] []]

/-- C2 (amended): ArabnetCrawler.parse_page returns exactly as many records
as containers with a non-empty title or description, and on the concrete
two-div.company page it returns one record whose source is "arabnet";
BetalistCrawler.parse_page returns exactly as many records as containers
whose extraction raises no error and whose title or link is non-empty (its
admission rule tests title or link, not description). -/
theorem c2_parse_page_record_counts :
    (∀ (soup : String → List Html) (uj : String → String → String) (ts html url : String),
      (arabnetParsePage soup uj ts html url).length =
        (selectAll (soup html) arabnetContainerSel).countP
          (fun c => truthyS (extractText c arabnetTitleSel) ||
            truthyS (extractText c arabnetDescSel))) ∧
    ((arabnetParsePage (fun _ => docC2Arab) ujConcat "TSA" "page" "https://arabnet.me/").length
        = 1 ∧
     (arabnetParsePage (fun _ => docC2Arab) ujConcat "TSA" "page" "https://arabnet.me/").map
        (fun r => dget r "source") = [Value.str "arabnet"]) ∧
    (∀ (soup : String → List Html) (uj : String → String → String) (today : Date)
        (ts html url : String),
      (betalistParsePage soup uj today ts html url).length =
        (selectAll (soup html) betalistContainerSel).countP
          (fun c => (betalistLogo uj url c).isOk &&
            (truthyS (betalistTitleOf c) || truthyS (betalistLinkOf uj url c)))) := by
  refine ⟨?_, by decide, ?_⟩
  · intro soup uj ts html url
    exact length_filterMap_eq_countP _ _ (fun c => arabnetItem_isSome uj url ts c) _
  · intro soup uj today ts html url
    exact length_filterMap_eq_countP _ _
      (fun c => betalistItem_isSome uj url ts
        (betalistDateMapGo today (selectAll (soup html) [Sel.tagIs "div"]) none) c) _

/-! ## Claim C3 -/

/-- The arabnet page of the C3 counterexample: one container with a title
only, whose record keeps its None-valued description and link fields. -/
def docC3Arab : List Html :=
  [Html.elem "div" [("class", "company")] [Html.elem "h2" [] [Html.text "Nadir"]]]

/-- C3 counterexample: ArabnetCrawler.parse_page stores a record whose
description and link fields hold None — None-valued fields are not removed
before storage there. -/
theorem c3_counterexample :
    arabnetParsePage (fun _ => docC3Arab) ujConcat "TSC" "p" "https://arabnet.me/x" =
      [[("source", Value.str "arabnet"), ("url", Value.str "https://arabnet.me/x"),
        ("scraped_at", Value.str "TSC"), ("title", Value.str "Nadir"),
        ("description", Value.null), ("link", Value.null)]] ∧
    ((arabnetParsePage (fun _ => docC3Arab) ujConcat "TSC" "p" "https://arabnet.me/x").all
      (fun r => r.all (fun kv => !(kv.2 == Value.null)))) = false := by decide

/-- C3 (amended): in the crawlers that do filter, the invariant holds —
every field of a record stored by BetalistCrawler.parse_page has a
non-None value (empty strings can remain), and every field of a record
produced by UneedCrawler.parse_tool_page is neither None nor the empty
string; ArabnetCrawler.parse_page however stores None-valued fields
unfiltered. -/
theorem c3_retained_fields_non_null :
    (∀ (soup : String → List Html) (uj : String → String → String) (today : Date)
        (ts html url : String),
      ((betalistParsePage soup uj today ts html url).all
        (fun r => r.all (fun kv => !(kv.2 == Value.null)))) = true) ∧
    (∀ (soup : String → List Html) (uj : String → String → String) (ts html toolUrl : String),
      ((uneedParseToolPage soup uj ts html toolUrl).all
        (fun kv => !(kv.2 == Value.null) && !(kv.2 == Value.str ""))) = true) := by
  constructor
  · intro soup uj today ts html url
    rw [List.all_eq_true]
    intro r hr
    simp only [betalistParsePage, List.mem_filterMap] at hr
    obtain ⟨c, _, hitem⟩ := hr
    unfold betalistItem at hitem
    rcases hlogo : betalistLogo uj url c with e | logo <;> rw [hlogo] at hitem <;>
      dsimp only at hitem
    · exact absurd hitem (by simp)
    · split at hitem
      · rw [Option.some_inj] at hitem
        subst hitem
        rw [List.all_eq_true]
        intro kv hkv
        have := List.of_mem_filter hkv
        simpa using this
      · exact absurd hitem (by simp)
  · intro soup uj ts html toolUrl
    rw [List.all_eq_true]
    intro kv hkv
    unfold uneedParseToolPage at hkv
    have := List.of_mem_filter hkv
    simpa using this

/-! ## Claim C4 -/

/-- The betalist page of the C4 scenario: a date header reading
"Yesterday November 17th" followed by one startup element. -/
def docC4 : List Html :=
  [Html.elem "div" [("class", "col-span-full text-3xl")]
     [Html.elem "strong" [] [Html.text "Yesterday"], Html.text " November 17th"],
   Html.elem "div" [("class", "block"), ("id", "startup-1")]
     [Html.elem "a" [("class", "font-medium")] [Html.text "Foo"]]]

/-- C4 counterexample: scraped on 2026-10-12, the startup below the header
"Yesterday November 17th" gets launch date 17-11-2026 (November 17 of the
current year), not 11-10-2026 (the day before the current date) — the
explicit month-day match takes precedence over the word Yesterday. -/
theorem c4_counterexample :
    (betalistParsePage (fun _ => docC4) ujConcat ⟨2026, 10, 12⟩ "TS4" "page"
        "https://betalist.com/").map (fun r => dget r "date_launched") =
      [Value.str "17-11-2026"] ∧
    fmtDMY (dayBefore ⟨2026, 10, 12⟩) = "11-10-2026" ∧
    Value.str "17-11-2026" ≠ Value.str "11-10-2026" := by decide

/-- Reduction of _parse_date on the header text of the C4 page: the month
regex matches, so the outcome is the strptime of day 17, November, current
year, with the Yesterday fallback only on strptime failure. -/
theorem parseDate_shape_yn17 (today : Date) :
    betalistParseDate today "YesterdayNovember 17th" =
      (match strptimeDayMonthYear ['1', '7'] 11 today.year with
       | some d => some (fmtDMY d)
       | none => some (fmtDMY (dayBefore today))) := rfl

/-- _parse_date on "YesterdayNovember 17th" for any datetime-representable
year: November 17 of the current year, formatted DD-MM-YYYY. -/
theorem parseDate_yesterdayNov17 (today : Date) (h1 : 1 ≤ today.year)
    (h2 : today.year ≤ 9999) :
    betalistParseDate today "YesterdayNovember 17th" =
      some ("17-11-" ++ toString today.year) := by
  rw [parseDate_shape_yn17]
  have hv : strptimeDayMonthYear ['1', '7'] 11 today.year = some ⟨today.year, 11, 17⟩ := by
    unfold strptimeDayMonthYear
    have hval : validDate today.year 11 17 = true := by
      simp [validDate, daysInMonth]
      omega
    have hd : digitsVal ['1', '7'] = 17 := by decide
    simp [hd, hval]
  rw [hv]
  show some (pad2 17 ++ "-" ++ pad2 11 ++ "-" ++ toString today.year) =
    some ("17-11-" ++ toString today.year)
  rfl

/-- The date map of the C4 page reduces to the parse of the header text. -/
theorem dateMap_docC4_shape (today : Date) :
    betalistDateMapGo today (selectAll docC4 [Sel.tagIs "div"]) none =
      (match betalistParseDate today "YesterdayNovember 17th" with
       | some d => if !d.data.isEmpty then [("startup-1", d)] else []
       | none => []) := rfl

/-- The date map of the C4 page assigns November 17 of the current year to
the startup element. -/
theorem dateMap_docC4 (today : Date) (h1 : 1 ≤ today.year) (h2 : today.year ≤ 9999) :
    betalistDateMapGo today (selectAll docC4 [Sel.tagIs "div"]) none =
      [("startup-1", "17-11-" ++ toString today.year)] := by
  rw [dateMap_docC4_shape, parseDate_yesterdayNov17 today h1 h2]
  have hne : ("17-11-" ++ toString today.year).data.isEmpty = false := by
    rw [strData_append]
    rfl
  simp [hne]

/-- C4 (amended): for every scrape date with a datetime-representable year,
the record for the startup under the "Yesterday November 17th" header
carries launch date 17 November of the current year, formatted DD-MM-YYYY
(this equals the day before the current date exactly when the current date
is November 18); the word Yesterday is ignored because the explicit
month-day pattern matches first. -/
theorem c4_explicit_month_day_wins (today : Date) (h1 : 1 ≤ today.year)
    (h2 : today.year ≤ 9999) :
    betalistParsePage (fun _ => docC4) ujConcat today "TS4" "page" "https://betalist.com/" =
      [[("source", Value.str "betalist"), ("url", Value.str "https://betalist.com/"),
        ("scraped_at", Value.str "TS4"), ("startup_id", Value.str "1"),
        ("title", Value.str "Foo"),
        ("date_launched", Value.str ("17-11-" ++ toString today.year))]] := by
  simp only [betalistParsePage]
  rw [dateMap_docC4 today h1 h2]
  rfl

/-- C4 witness: the amended statement instantiated at the scrape date
2026-10-12. -/
theorem c4_explicit_month_day_wins_witness :
    1 ≤ (⟨2026, 10, 12⟩ : Date).year ∧ (⟨2026, 10, 12⟩ : Date).year ≤ 9999 ∧
    betalistParsePage (fun _ => docC4) ujConcat ⟨2026, 10, 12⟩ "TS4" "page"
        "https://betalist.com/" =
      [[("source", Value.str "betalist"), ("url", Value.str "https://betalist.com/"),
        ("scraped_at", Value.str "TS4"), ("startup_id", Value.str "1"),
        ("title", Value.str "Foo"),
        ("date_launched", Value.str ("17-11-" ++ toString (⟨2026, 10, 12⟩ : Date).year))]] :=
  ⟨by decide, by decide,
   c4_explicit_month_day_wins ⟨2026, 10, 12⟩ (by decide) (by decide)⟩

/-! ## Claim C5 -/

/-- The betalist page of the C5 counterexample: a relative "Today" header
followed by one startup element. -/
def docC5 : List Html :=
  [Html.elem "div" [("class", "col-span-full text-3xl")] [Html.text "Today"],
   Html.elem "div" [("class", "block"), ("id", "startup-9")]
     [Html.elem "a" [("class", "font-medium")] [Html.text "Bar"]]]

/-- C5 counterexample: the same HTML and URL parsed on 2026-10-12 and on
2026-10-13 differ beyond the scraped_at field — the launch date follows
the wall clock. -/
theorem c5_counterexample :
    (betalistParsePage (fun _ => docC5) ujConcat ⟨2026, 10, 12⟩ "TS5" "page" "u5").map
        (eraseKey "scraped_at") ≠
    (betalistParsePage (fun _ => docC5) ujConcat ⟨2026, 10, 13⟩ "TS5" "page" "u5").map
        (eraseKey "scraped_at") := by decide

/-- Mapping over a guarded singleton pushes the function into the branch. -/
theorem map_ite_some {α β : Type} (f : α → β) (P : Prop) [Decidable P] (x : α) :
    (if P then some x else none).map f = if P then some (f x) else none := by
  split <;> rfl

/-- One arabnet container record, with scraped_at removed, does not depend
on the capture timestamp. -/
theorem arabnetItem_erase_ts (uj : String → String → String) (url ts1 ts2 : String)
    (c : Html) :
    (arabnetItem uj url ts1 c).map (eraseKey "scraped_at") =
      (arabnetItem uj url ts2 c).map (eraseKey "scraped_at") := by
  simp only [arabnetItem, map_ite_some]
  rfl

/-- One betalist container record, with scraped_at removed, does not depend
on the capture timestamp. -/
theorem betalistItem_erase_ts (uj : String → String → String) (url ts1 ts2 : String)
    (dm : List (String × String)) (c : Html) :
    (betalistItem uj url ts1 dm c).map (eraseKey "scraped_at") =
      (betalistItem uj url ts2 dm c).map (eraseKey "scraped_at") := by
  simp only [betalistItem]
  cases hl : betalistLogo uj url c with
  | error e => rfl
  | ok logo =>
    dsimp only
    simp only [map_ite_some]
    rfl

/-- C5 (amended): two parse_page runs on the same HTML and URL at the same
current date yield identical record lists except for the scraped_at value;
on different current dates the date_launched fields can differ as well (the
counterexample), because relative and explicit dates are resolved against
the wall clock. -/
theorem c5_same_date_reproducible :
    (∀ (soup : String → List Html) (uj : String → String → String) (today : Date)
        (ts1 ts2 html url : String),
      (betalistParsePage soup uj today ts1 html url).map (eraseKey "scraped_at") =
        (betalistParsePage soup uj today ts2 html url).map (eraseKey "scraped_at")) ∧
    (∀ (soup : String → List Html) (uj : String → String → String) (ts1 ts2 html url : String),
      (arabnetParsePage soup uj ts1 html url).map (eraseKey "scraped_at") =
        (arabnetParsePage soup uj ts2 html url).map (eraseKey "scraped_at")) := by
  constructor
  · intro soup uj today ts1 ts2 html url
    simp only [betalistParsePage]
    rw [List.map_filterMap, List.map_filterMap]
    congr 1
    funext c
    exact betalistItem_erase_ts uj url ts1 ts2
      (betalistDateMapGo today (selectAll (soup html) [Sel.tagIs "div"]) none) c
  · intro soup uj ts1 ts2 html url
    simp only [arabnetParsePage]
    rw [List.map_filterMap, List.map_filterMap]
    congr 1
    funext c
    exact arabnetItem_erase_ts uj url ts1 ts2 c

/-! ## Claim C6 -/

/-- start_url or BASE_URL: the Python or-default over the argument. -/
def betalistStartUrl (startUrl : Option String) : String :=
  match startUrl with
  | some u => if !u.data.isEmpty then u else betalistBaseUrl
  | none => betalistBaseUrl

/-- The pagination loop threads its accumulator: the loop result is the
incoming data followed by this invocation's own collection. -/
theorem betalistCrawlGo_append (pf : String → Option String) (soup : String → List Html)
    (uj : String → String → String) (today : Date) (ts url : String) :
    ∀ (pages : List Nat) (data : List Record),
      betalistCrawlGo pf soup uj today ts url pages data =
        data ++ betalistCrawlCollect pf soup uj today ts url pages := by
  intro pages
  induction pages with
  | nil => intro data; simp [betalistCrawlGo, betalistCrawlCollect]
  | cons p ps ih =>
    intro data
    simp only [betalistCrawlGo, betalistCrawlCollect]
    cases hf : pf (betalistPageUrl url p) with
    | none => simp
    | some h =>
      by_cases hh : h.data.isEmpty = true
      · simp [hh]
      · simp [hh, ih, List.append_assoc]

/-- The page of the C6 counterexample: one startup container. -/
def docC6 : List Html :=
  [Html.elem "div" [("class", "block"), ("id", "startup-3")]
     [Html.elem "a" [("class", "font-medium")] [Html.text "Gamma"]]]

/-- The fetch oracle of the C6 counterexample: page 1 succeeds, everything
else fails. -/
def pfC6 : String → Option String :=
  fun u => if u = "https://betalist.com/" then some "page6" else none

/-- C6 counterexample: a second crawl call on the same crawler instance
returns the first call's records again — its return value differs from the
records accumulated by that invocation's own page parses (which the first
call's return value does equal). -/
theorem c6_counterexample :
    (betalistCrawl (betalistCrawl (mkBetalist "data" 1 3 30) pfC6 (fun _ => docC6) ujConcat
        ⟨2026, 10, 12⟩ "TS6" none 1).1 pfC6 (fun _ => docC6) ujConcat
        ⟨2026, 10, 12⟩ "TS6" none 1).2 ≠
      betalistCrawlCollect pfC6 (fun _ => docC6) ujConcat ⟨2026, 10, 12⟩ "TS6"
        (betalistStartUrl none) (List.range' 1 1) ∧
    (betalistCrawl (mkBetalist "data" 1 3 30) pfC6 (fun _ => docC6) ujConcat
        ⟨2026, 10, 12⟩ "TS6" none 1).2 =
      betalistCrawlCollect pfC6 (fun _ => docC6) ujConcat ⟨2026, 10, 12⟩ "TS6"
        (betalistStartUrl none) (List.range' 1 1) := by decide

/-- C6 (amended): the record list lives on the crawler instance — created
at construction, not at crawl start — and crawl appends this invocation's
successful page parses to it, stopping without error at the first falsy
fetch; crawl returns the instance's entire accumulated list (records of
earlier crawl calls included) and leaves the configuration untouched. -/
theorem c6_crawl_returns_accumulated_list (st : BetalistState)
    (pf : String → Option String) (soup : String → List Html)
    (uj : String → String → String) (today : Date) (ts : String)
    (su : Option String) (mp : Nat) :
    (betalistCrawl st pf soup uj today ts su mp).2 =
      st.data ++ betalistCrawlCollect pf soup uj today ts (betalistStartUrl su)
        (List.range' 1 mp) ∧
    (betalistCrawl st pf soup uj today ts su mp).1.data =
      st.data ++ betalistCrawlCollect pf soup uj today ts (betalistStartUrl su)
        (List.range' 1 mp) ∧
    (betalistCrawl st pf soup uj today ts su mp).1.output_dir = st.output_dir ∧
    (betalistCrawl st pf soup uj today ts su mp).1.rate_limit = st.rate_limit ∧
    (betalistCrawl st pf soup uj today ts su mp).1.max_retries = st.max_retries ∧
    (betalistCrawl st pf soup uj today ts su mp).1.timeout = st.timeout ∧
    (betalistCrawl st pf soup uj today ts su mp).1.sessionOpen = st.sessionOpen := by
  refine ⟨?_, ?_, rfl, rfl, rfl, rfl, rfl⟩ <;>
    simp [betalistCrawl, betalistStartUrl, betalistCrawlGo_append]
